import Mathlib

/-!
Shallow embedding of `saturdaymorning.py` (the SaturdayMorning episode-drip
script): the directory-traversal engine, configuration merging, candidate
selection, ordering-key derivation, schedule evaluation and the move/dry-run
decision, together with theorems checking the specification's claims.

Paths are modelled as `List String` (the script only ever builds paths with
`os.path.join`); directory trees as an inductive `FSNode`; Python strings as
Lean `String` compared by code points; Python dicts over string keys as
association lists with Python's insertion-order update semantics.
-/

namespace SatMon

/-! ## Constants (saturdaymorning.py lines 15-26) -/

def CONF_NAME : String := ".satmonrc"

def CONF_SECTION_DEFAULT : String := "all"

def DAY_NAMES : List String :=
  ["sunday", "monday", "tuesday", "wednesday", "thursday", "friday", "saturday"]

def SUBJECT_SIBLINGS : String := "siblings"

def SUBJECT_NEPHEWS : String := "nephews"

/-! ## Python string ordering (code-point lexicographic, used by `sorted`) -/

def charLt (a b : Char) : Bool := a.toNat < b.toNat

def listCharLt : List Char → List Char → Bool
  | [], [] => false
  | [], _ :: _ => true
  | _ :: _, [] => false
  | a :: as, b :: bs => charLt a b || (a == b && listCharLt as bs)

def strLt (a b : String) : Bool := listCharLt a.data b.data

def strLe (a b : String) : Bool := !(strLt b a)

/-- Stable insertion into a sorted list (an element goes before the first
element it is `le` to, so earlier elements with an equal key stay first). -/
def sortInsert (le : String → String → Bool) (a : String) : List String → List String
  | [] => [a]
  | b :: l => if le a b then a :: b :: l else b :: sortInsert le a l

/-- Model of Python's stable `sorted` on a list of strings with a `le`
comparison derived from the sort key. -/
def stableSort (le : String → String → Bool) : List String → List String
  | [] => []
  | a :: l => sortInsert le a (stableSort le l)

/-- A name is hidden when its first character is a dot
(`e[0] != '.'` / `i[0] != '.'` in the script). -/
def isHidden (s : String) : Bool :=
  match s.data with
  | [] => false
  | c :: _ => c == '.'

/-! ## Ordering-key deriver (lines 190-205) -/

/-- Length of the maximal run of trailing decimal digits, i.e. what the
regex `\d+$` matches (0 when there is no match). -/
def trailingDigitRun (s : String) : Nat :=
  (s.data.reverse.takeWhile Char.isDigit).length

/-- `_get_episode_key`: zero-pad a trailing digit run to width 6.
`padlen = 6 - (end - start)` with `assert padlen >= 0`: the assertion
failure (AssertionError) is modelled as `none`, and it fires exactly when
the digit run is longer than 6. -/
def _get_episode_key (path : String) : Option String :=
  if trailingDigitRun path = 0 then some path
  else if 6 < trailingDigitRun path then none
  else
    some (String.mk (path.data.take (path.data.length - trailingDigitRun path) ++
      List.replicate (6 - trailingDigitRun path) '0' ++
      path.data.drop (path.data.length - trailingDigitRun path)))

/-- Total variant used as sort key; agrees with `_get_episode_key`
whenever the latter does not assert. -/
def episodeKeyD (s : String) : String := (_get_episode_key s).getD s

/-! ## Entry selector (lines 173-187) -/

/-- `_get_first_entry`: plain lexicographic sort of the listing, first
non-hidden name (or `none`). -/
def _get_first_entry (names : List String) : Option String :=
  (stableSort strLe names).find? (fun e => !(isHidden e))

/-- `_get_ordered_entries`: non-hidden names sorted by the episode key.
`none` models the AssertionError raised from `_get_episode_key` while
sorting. -/
def _get_ordered_entries (names : List String) : Option (List String) :=
  let visible := names.filter (fun n => !(isHidden n))
  if visible.all (fun n => (_get_episode_key n).isSome) then
    some (stableSort (fun a b => strLe (episodeKeyD a) (episodeKeyD b)) visible)
  else none

/-! ## Configuration model (configparser use on lines 49-52, 65, 72, 83-87) -/

/-- Items of one configuration section / a Python dict over string keys. -/
abbrev Items := List (String × String)

/-- A parsed configuration: named sections with their items. -/
abbrev Sections := List (String × Items)

/-- Python dict assignment `d[k] = v`: replace in place when the key
exists, append otherwise. -/
def setItem (d : Items) (k v : String) : Items :=
  if d.any (fun p => p.1 == k) then
    d.map (fun p => if p.1 == k then (k, v) else p)
  else d ++ [(k, v)]

/-- Python `dict.update`: apply every pair of `upd` over `base`
(override, not union). -/
def updateItems (base upd : Items) : Items :=
  upd.foldl (fun acc kv => setItem acc kv.1 kv.2) base

/-- `_tuples_to_dict` (lines 208-212). -/
def _tuples_to_dict (tuples : Items) : Items :=
  tuples.foldl (fun acc kv => setItem acc kv.1 kv.2) []

/-- `configparser` reading a second source over an existing one: section
items merge key-wise, the later source wins. -/
def mergeSections (base file : Sections) : Sections :=
  file.foldl
    (fun acc s =>
      if acc.any (fun t => t.1 == s.1) then
        acc.map (fun t => if t.1 == s.1 then (t.1, updateItems t.2 s.2) else t)
      else acc ++ [s])
    base

/-- The built-in `DEFAULTS` string (lines 22-26), as parsed: note the
source really spells the default move value `newphews`. -/
def DEFAULTS : Sections := [("all", [("move", "newphews"), ("schedule", "")])]

/-- Lines 49-52: `read_string(DEFAULTS)` then `readfp` of the scope's
config file. -/
def readConfig (file : Sections) : Sections := mergeSections DEFAULTS file

/-- `config.get(section, key)` (as an `Option`). -/
def cfgGet (c : Sections) (sec key : String) : Option String :=
  (c.lookup sec).bind (fun its => its.lookup key)

/-- `config.has_section`. -/
def hasSection (c : Sections) (sec : String) : Bool := (c.lookup sec).isSome

/-- `config.items(section)` (only ever called on sections that exist). -/
def itemsOf (c : Sections) (sec : String) : Items := (c.lookup sec).getD []

/-! ## Filesystem model and traversal (lines 29-62) -/

/-- A filesystem node: a file, or a directory with named entries. -/
inductive FSNode where
  | file
  | dir (entries : List (String × FSNode))

def isDir : FSNode → Bool
  | .file => false
  | .dir _ => true

/-- `os.path.isfile(os.path.join(src_dir, CONF_NAME))` (line 46). -/
def hasConfFile : FSNode → Bool
  | .file => false
  | .dir es => es.any (fun p => p.1 == CONF_NAME && !(isDir p.2))

mutual
/-- `_runOn` (lines 44-62), abstracted to the scopes it processes: returns
the `(src_dir, dst_dir)` pairs on which `_moveSubjects` is invoked, in
visit order. A directory with the marker is a terminal scope; otherwise
the walk recurses into each subdirectory with the entry name appended to
both paths, ignoring plain files. -/
def _runOn : FSNode → List String → List String → List (List String × List String)
  | .file, _, _ => []
  | .dir es, p, d =>
    if hasConfFile (.dir es) then [(p, d)]
    else runOnList es p d

/-- The `for entry in os.listdir(src_dir)` loop of `_runOn` (lines 58-62). -/
def runOnList : List (String × FSNode) → List String → List String →
    List (List String × List String)
  | [], _, _ => []
  | (n, c) :: rest, p, d =>
    (if isDir c then _runOn c (p ++ [n]) (d ++ [n]) else []) ++ runOnList rest p d
end

/-! ## Candidate selection (lines 64-102) -/

/-- Result of the candidate-selection half of `_moveSubjects`:
early return on an empty scope (line 70), early return when no nephew has
a child (line 97), or a selected candidate with the effective options. -/
inductive Cand where
  | skipEmpty
  | skipNoNephew
  | cand (srcDir dstDir : List String) (firstEntry : String) (opts : Items)

/-- The nephew scan (lines 74-97): walk the naturally-ordered subject
directories; `os.listdir` on a nephew needs it to be a directory; the
first subject with a non-empty (non-hidden) child is selected, merging a
same-named config section over the base options. -/
def selectNephew (scope : List (String × FSNode)) (srcDir dstDir : List String)
    (config : Sections) (baseOpts : Items) : List String → Except String Cand
  | [] => .ok .skipNoNephew
  | entry :: rest =>
    match scope.lookup entry with
    | none => .error ("No such file or directory: " ++ entry)
    | some .file => .error ("Not a directory: " ++ entry)
    | some (.dir es) =>
      match _get_first_entry (es.map Prod.fst) with
      | some fe =>
        .ok (.cand (srcDir ++ [entry]) (dstDir ++ [entry]) fe
          (if hasSection config entry then updateItems baseOpts (itemsOf config entry)
           else baseOpts))
      | none => selectNephew scope srcDir dstDir config baseOpts rest

/-- Lines 64-102 of `_moveSubjects`: read the `move` subject, list and
order the scope, return early when empty, then pick the candidate by the
nephew scan or as the scope's own first entry. -/
def selectCandidate (scope : List (String × FSNode)) (srcDir dstDir : List String)
    (config : Sections) : Except String Cand :=
  match cfgGet config CONF_SECTION_DEFAULT "move" with
  | none => .error "NoOptionError: move"
  | some subjects =>
    match _get_ordered_entries (scope.map Prod.fst) with
    | none => .error "AssertionError"
    | some [] => .ok .skipEmpty
    | some (e :: rest) =>
      let baseOpts := _tuples_to_dict (itemsOf config CONF_SECTION_DEFAULT)
      if subjects = SUBJECT_NEPHEWS then
        selectNephew scope srcDir dstDir config baseOpts (e :: rest)
      else
        .ok (.cand srcDir dstDir e baseOpts)

/-! ## Schedule evaluation and the move (lines 104-145) -/

def dayName (w : Nat) : String := DAY_NAMES.getD w ""

def pathString (p : List String) : String := String.intercalate "/" p

/-- The successive `if schedule == ...` checks of lines 113-130, threading
the `(do_move, move_reason)` state exactly as the source does. -/
def scheduleDecision (schedule : String) (w : Nat) : Bool × Option String :=
  let s0 : Bool × Option String := (false, none)
  let s1 := if schedule = "daily" then (true, some "the schedule is daily.") else s0
  let s2 :=
    if schedule = "weekday" then
      if 0 < w ∧ w < 6 then (true, some "today is a weekday")
      else (s1.1, some "today is not a weekday")
    else s1
  if schedule ∈ DAY_NAMES then
    if DAY_NAMES.indexOf schedule = w then
      (true, some ("today is a " ++ dayName w))
    else
      (s2.1, some ("today is not a " ++ schedule ++ " (it's a " ++ dayName w ++ ")"))
  else s2

/-- What the second half of `_moveSubjects` did for the candidate:
the decision, the `os.renames` call actually performed (src, dst) if any,
and whether `self._did_something` was set. -/
structure ScheduleOutcome where
  doMove : Bool
  reason : Option String
  renamed : Option (List String × List String)
  didSomething : Bool

/-- Lines 104-145: read `schedule` from the effective options (empty or
absent is fatal), decide, then move (`os.renames` unless dry-run), skip
with a reason, or fail on an unknown schedule; `_did_something` is set
exactly when `do_move`. -/
def evalSchedule (opts : Items) (srcDir dstDir : List String) (firstEntry : String)
    (w : Nat) (dryRun : Bool) : Except String ScheduleOutcome :=
  let srcPath := srcDir ++ [firstEntry]
  match opts.lookup "schedule" with
  | none => .error ("No schedule specified for: " ++ pathString srcPath)
  | some schedule =>
    if schedule = "" then
      .error ("No schedule specified for: " ++ pathString srcPath)
    else
      let dec := scheduleDecision schedule w
      if dec.1 then
        let dstPath := dstDir ++ [firstEntry]
        .ok { doMove := true, reason := dec.2
            , renamed := if dryRun then none else some (srcPath, dstPath)
            , didSomething := true }
      else
        match dec.2 with
        | some _ =>
          .ok { doMove := false, reason := dec.2, renamed := none
              , didSomething := false }
        | none => .error ("Unknown schedule: " ++ schedule)

/-- Overall outcome of `_moveSubjects` for one scope. -/
inductive MoveOutcome where
  | skipEmpty
  | skipNoNephew
  | done (o : ScheduleOutcome)

/-- `_moveSubjects` (lines 64-145): candidate selection followed by
schedule evaluation. -/
def _moveSubjects (scope : List (String × FSNode)) (srcDir dstDir : List String)
    (config : Sections) (w : Nat) (dryRun : Bool) : Except String MoveOutcome :=
  match selectCandidate scope srcDir dstDir config with
  | .error e => .error e
  | .ok .skipEmpty => .ok .skipEmpty
  | .ok .skipNoNephew => .ok .skipNoNephew
  | .ok (.cand s d fe opts) =>
    match evalSchedule opts s d fe w dryRun with
    | .error e => .error e
    | .ok o => .ok (.done o)

/-- A scope's contribution to `self._did_something`. -/
def MoveOutcome.didSomething : MoveOutcome → Bool
  | .skipEmpty => false
  | .skipNoNephew => false
  | .done o => o.didSomething

/-- Lines 41-42 of `run`: the final "Nothing to do." report is printed
exactly when the flag was never set. -/
def nothingToDo (didSomething : Bool) : Bool := !didSomething

/-! ## Predicates used to state the claims -/

/-- A subject directory that exists in the scope, is a directory, and has
no non-hidden child: the nephew scan skips over it. -/
def emptySubjectDir (scope : List (String × FSNode)) (n : String) : Prop :=
  ∃ es, scope.lookup n = some (FSNode.dir es) ∧ _get_first_entry (es.map Prod.fst) = none

/-- The schedule strings the decision table of lines 115-130 recognizes. -/
def recognizedSchedule (s : String) : Prop :=
  s = "daily" ∨ s = "weekday" ∨ s ∈ DAY_NAMES

end SatMon
namespace SatMon

theorem lookup_cons (a : String × String) (l : Items) (k : String) :
    ((a :: l).lookup k) = if k = a.1 then some a.2 else l.lookup k := by
  obtain ⟨a1, a2⟩ := a
  by_cases h : k = a1
  · subst h; simp [List.lookup]
  · rw [if_neg h]
    show (match k == a1 with | true => some a2 | false => List.lookup k l) = _
    rw [beq_eq_false_iff_ne.mpr h]

theorem lookup_map_keep (d : Items) (kk v k : String) (hk : k ≠ kk) :
    (d.map (fun p => if p.1 == kk then (kk, v) else p)).lookup k = d.lookup k := by
  induction d with
  | nil => rfl
  | cons a rest ih =>
    obtain ⟨a1, a2⟩ := a
    simp only [List.map_cons]
    by_cases h : a1 = kk
    · subst h
      rw [if_pos (by simp), lookup_cons, lookup_cons]
      rw [if_neg (by exact hk), if_neg (by exact hk)]
      exact ih
    · rw [if_neg (by simp [h]), lookup_cons, lookup_cons, ih]

theorem setItem_cons_ne (a1 a2 : String) (rest : Items) (kk v : String) (h : a1 ≠ kk) :
    setItem ((a1, a2) :: rest) kk v = (a1, a2) :: setItem rest kk v := by
  by_cases hr : rest.any (fun p => p.1 == kk) <;> simp [setItem, h, hr]

theorem lookup_setItem (d : Items) (kk v k : String) :
    (setItem d kk v).lookup k = if k = kk then some v else d.lookup k := by
  induction d with
  | nil => by_cases h : k = kk <;> simp [setItem, lookup_cons, h]
  | cons a rest ih =>
    obtain ⟨a1, a2⟩ := a
    by_cases h : a1 = kk
    · subst h
      have hany : (((a1, a2) :: rest).any (fun p => p.1 == a1)) = true := by simp
      rw [show setItem ((a1, a2) :: rest) a1 v =
            (a1, v) :: rest.map (fun p => if p.1 == a1 then (a1, v) else p) by
          simp [setItem, hany]]
      rw [lookup_cons, lookup_cons]
      by_cases hk : k = a1
      · simp [hk]
      · rw [if_neg hk, if_neg hk, if_neg hk]
        exact lookup_map_keep rest a1 v k hk
    · rw [setItem_cons_ne a1 a2 rest kk v h, lookup_cons, lookup_cons, ih]
      by_cases hk : k = a1 <;> by_cases hkk : k = kk <;> simp_all

theorem lookup_updateItems (upd : Items) (base : Items) (k : String) :
    (updateItems base upd).lookup k =
      match (_tuples_to_dict upd).lookup k with
      | some v => some v
      | none => base.lookup k := by
  have G : ∀ (u : Items) (b : Items),
      (updateItems b u).lookup k =
        match (updateItems [] u).lookup k with
        | some v => some v
        | none => b.lookup k := by
    intro u
    induction u with
    | nil => intro b; simp [updateItems, List.lookup]
    | cons a rest ih =>
      intro b
      obtain ⟨k1, v1⟩ := a
      show (updateItems (setItem b k1 v1) rest).lookup k = _
      rw [ih (setItem b k1 v1)]
      have hr : (updateItems [] ((k1, v1) :: rest)).lookup k =
          match (updateItems [] rest).lookup k with
          | some v => some v
          | none => (setItem [] k1 v1).lookup k := by
        show (updateItems (setItem [] k1 v1) rest).lookup k = _
        rw [ih (setItem [] k1 v1)]
      rw [hr]
      cases hrest : (updateItems [] rest).lookup k with
      | some v => simp
      | none =>
        simp only []
        rw [lookup_setItem, lookup_setItem]
        by_cases hk : k = k1 <;> simp [hk]
  have ht : _tuples_to_dict upd = updateItems [] upd := rfl
  rw [ht]
  exact G upd base

end SatMon


namespace SatMon

theorem selectNephew_all_empty (scope : List (String × FSNode)) (s d : List String)
    (config : Sections) (base : Items) :
    ∀ l, (∀ n ∈ l, emptySubjectDir scope n) →
      selectNephew scope s d config base l = .ok .skipNoNephew := by
  intro l
  induction l with
  | nil => intro _; rfl
  | cons e rest ih =>
    intro h
    obtain ⟨es, hl, hf⟩ := h e (by simp)
    simp only [selectNephew, hl, hf]
    exact ih (fun n hn => h n (by simp [hn]))

theorem selectNephew_first (scope : List (String × FSNode)) (s d : List String)
    (config : Sections) (base : Items) (pre : List String) (e : String)
    (post : List String) (es : List (String × FSNode)) (x : String)
    (hpre : ∀ n ∈ pre, emptySubjectDir scope n)
    (he : scope.lookup e = some (FSNode.dir es))
    (hx : _get_first_entry (es.map Prod.fst) = some x) :
    selectNephew scope s d config base (pre ++ e :: post) =
      .ok (.cand (s ++ [e]) (d ++ [e]) x
        (if hasSection config e then updateItems base (itemsOf config e) else base)) := by
  induction pre with
  | nil => simp only [List.nil_append, selectNephew, he, hx]
  | cons a pre ih =>
    obtain ⟨es', hl, hf⟩ := hpre a (by simp)
    simp only [List.cons_append, selectNephew, hl, hf]
    exact ih (fun n hn => hpre n (by simp [hn]))

theorem scheduleDecision_unrecognized (sch : String) (w : Nat)
    (h1 : sch ≠ "daily") (h2 : sch ≠ "weekday") (h3 : sch ∉ DAY_NAMES) :
    scheduleDecision sch w = (false, none) := by
  simp [scheduleDecision, h1, h2, h3]

theorem evalSchedule_ok_of (opts : Items) (s d : List String) (fe : String)
    (w : Nat) (dry : Bool) (sch : String)
    (hl : opts.lookup "schedule" = some sch) (hne : sch ≠ "")
    (hdec : (scheduleDecision sch w).1 = true ∨ (scheduleDecision sch w).2 ≠ none) :
    ∃ o, evalSchedule opts s d fe w dry = .ok o := by
  simp only [evalSchedule, hl, if_neg hne]
  by_cases h1 : (scheduleDecision sch w).1
  · exact ⟨_, by rw [if_pos h1]⟩
  · cases h2 : (scheduleDecision sch w).2 with
    | some r =>
      exact ⟨{ doMove := false, reason := some r, renamed := none
             , didSomething := false }, by rw [if_neg h1]⟩
    | none =>
      rcases hdec with h | h
      · exact absurd h1 (by simp [h])
      · exact absurd h2 h

theorem evalSchedule_dryRun (opts : Items) (s d : List String) (fe : String)
    (w : Nat) (o : ScheduleOutcome)
    (h : evalSchedule opts s d fe w true = .ok o) :
    o.renamed = none ∧ o.didSomething = o.doMove := by
  cases hl : opts.lookup "schedule" with
  | none => simp [evalSchedule, hl] at h
  | some sch =>
    simp only [evalSchedule, hl] at h
    by_cases hne : sch = ""
    · simp [hne] at h
    · rw [if_neg hne] at h
      by_cases h1 : (scheduleDecision sch w).1
      · rw [if_pos h1] at h
        cases h
        simp
      · rw [if_neg h1] at h
        cases h2 : (scheduleDecision sch w).2 with
        | none => rw [h2] at h; simp at h
        | some r =>
          rw [h2] at h
          cases h
          simp

theorem mem_runOnList (es : List (String × FSNode)) (p d : List String)
    (x : List String × List String) :
    x ∈ runOnList es p d ↔
      ∃ n c, (n, c) ∈ es ∧ isDir c = true ∧ x ∈ _runOn c (p ++ [n]) (d ++ [n]) := by
  induction es with
  | nil => simp [runOnList]
  | cons a rest ih =>
    obtain ⟨n, c⟩ := a
    cases hc : isDir c with
    | true =>
      simp only [runOnList, hc, if_true, List.mem_append, ih, List.mem_cons]
      constructor
      · rintro (hx | ⟨n2, c2, hmem, hdir, hx⟩)
        · exact ⟨n, c, Or.inl rfl, hc, hx⟩
        · exact ⟨n2, c2, Or.inr hmem, hdir, hx⟩
      · rintro ⟨n2, c2, hmem | hmem, hdir, hx⟩
        · cases hmem
          exact Or.inl hx
        · exact Or.inr ⟨n2, c2, hmem, hdir, hx⟩
    | false =>
      simp only [runOnList, hc, Bool.false_eq_true, if_false, List.nil_append, ih,
        List.mem_cons]
      constructor
      · rintro ⟨n2, c2, hmem, hdir, hx⟩
        exact ⟨n2, c2, Or.inr hmem, hdir, hx⟩
      · rintro ⟨n2, c2, hmem | hmem, hdir, hx⟩
        · cases hmem
          exact absurd hdir (by simp [hc])
        · exact ⟨n2, c2, hmem, hdir, hx⟩

end SatMon
namespace SatMon

/-! ## Claim theorems -/

/-- C1: the claim says a scope whose default section does not set `move`
behaves as `move=nephews`. In the code, the built-in default is the
misspelled string `newphews`, which is not `SUBJECT_NEPHEWS`, so candidate
selection takes the sibling branch and picks the scope's own first entry
`A` instead of descending to `B/x`; with `move=nephews` written explicitly
the nephew scan does pick `B/x`. -/
theorem defaultMoveKeyMisspelled :
    cfgGet (readConfig [("all", [("schedule", "daily")])]) CONF_SECTION_DEFAULT "move"
      = some "newphews" ∧
    "newphews" ≠ SUBJECT_NEPHEWS ∧
    selectCandidate [("A", FSNode.dir []), ("B", FSNode.dir [("x", FSNode.file)])] [] []
        (readConfig [("all", [("schedule", "daily")])])
      = .ok (.cand [] [] "A" [("move", "newphews"), ("schedule", "daily")]) ∧
    selectCandidate [("A", FSNode.dir []), ("B", FSNode.dir [("x", FSNode.file)])] [] []
        (readConfig [("all", [("schedule", "daily"), ("move", "nephews")])])
      = .ok (.cand ["B"] ["B"] "x" [("move", "nephews"), ("schedule", "daily")]) :=
  ⟨rfl, by decide, rfl, rfl⟩

/-- C2: the schedule decision table: `daily` always moves with its fixed
reason; `weekday` moves exactly for weekday numbers 1..5; a day-name
schedule moves exactly when its index equals the weekday number, with the
stated match/mismatch reasons. -/
theorem scheduleDecisionTable (w : Nat) (hw : w < 7) :
    scheduleDecision "daily" w = (true, some "the schedule is daily.") ∧
    scheduleDecision "weekday" w =
      (if 1 ≤ w ∧ w ≤ 5 then (true, some "today is a weekday")
       else (false, some "today is not a weekday")) ∧
    (∀ i, i < 7 →
      scheduleDecision (DAY_NAMES.getD i "") w =
        (if i = w then (true, some ("today is a " ++ DAY_NAMES.getD w ""))
         else (false, some ("today is not a " ++ DAY_NAMES.getD i "" ++
           " (it's a " ++ DAY_NAMES.getD w "" ++ ")")))) := by
  interval_cases w <;>
    exact ⟨by decide, by decide, by intro i hi; interval_cases i <;> decide⟩

/-- Witness for C2: on a Tuesday (weekday number 2) a `tuesday` schedule
moves with the matching reason. -/
theorem scheduleDecisionTableWitness :
    scheduleDecision "tuesday" 2 = (true, some "today is a tuesday") :=
  ((scheduleDecisionTable 2 (by decide)).2.2 2 (by decide)).trans (by decide)

/-- C3: given a selected candidate, schedule evaluation fails exactly on
an absent/empty schedule (with the "No schedule specified for" message) or
an unrecognized one (with the "Unknown schedule" message); every
recognized non-empty schedule completes without error. -/
theorem evalScheduleErrorIff (opts : Items) (s d : List String) (fe : String)
    (w : Nat) (dry : Bool) :
    (opts.lookup "schedule" = none →
      evalSchedule opts s d fe w dry =
        .error ("No schedule specified for: " ++ pathString (s ++ [fe]))) ∧
    (opts.lookup "schedule" = some "" →
      evalSchedule opts s d fe w dry =
        .error ("No schedule specified for: " ++ pathString (s ++ [fe]))) ∧
    (∀ sch, opts.lookup "schedule" = some sch → sch ≠ "" → ¬ recognizedSchedule sch →
      evalSchedule opts s d fe w dry = .error ("Unknown schedule: " ++ sch)) ∧
    (∀ sch, opts.lookup "schedule" = some sch → sch ≠ "" → recognizedSchedule sch →
      ∃ o, evalSchedule opts s d fe w dry = .ok o) := by
  refine ⟨fun hl => by simp [evalSchedule, hl], fun hl => by simp [evalSchedule, hl], ?_, ?_⟩
  · intro sch hl hne hnr
    rw [recognizedSchedule] at hnr
    push_neg at hnr
    obtain ⟨h1, h2, h3⟩ := hnr
    have hd := scheduleDecision_unrecognized sch w h1 h2 h3
    simp [evalSchedule, hl, hne, hd]
  · intro sch hl hne hr
    apply evalSchedule_ok_of opts s d fe w dry sch hl hne
    rcases hr with rfl | rfl | hmem
    · exact Or.inl rfl
    · refine Or.inr ?_
      have hmem : ("weekday" : String) ∉ DAY_NAMES := by decide
      by_cases hw : 0 < w ∧ w < 6 <;> simp [scheduleDecision, hw, hmem]
    · refine Or.inr ?_
      by_cases hi : DAY_NAMES.indexOf sch = w <;> simp [scheduleDecision, hmem, hi]

/-- Witness for C3: a `daily` schedule evaluates without error. -/
theorem evalScheduleErrorIffWitness :
    ∃ o, evalSchedule [("schedule", "daily")] [] [] "x" 3 false = .ok o :=
  (evalScheduleErrorIff [("schedule", "daily")] [] [] "x" 3 false).2.2.2 "daily"
    (by rfl) (by decide) (Or.inl rfl)

/-- C4: under `move=nephews` the naturally-ordered subject directories are
scanned, empty ones are skipped, the first one with a non-empty child is
selected with its same-named config section merged over the base options;
if every subject directory is empty the scope is skipped without error;
`updateItems` is an override (the update's value wins on key conflicts);
and the claim's concrete `["A","B"]` instance selects `B/x` with section
`B` overriding the default section. -/
theorem nephewSelectionOverride :
    (∀ (scope : List (String × FSNode)) (s d : List String) (config : Sections)
        pre e post es x,
      cfgGet config CONF_SECTION_DEFAULT "move" = some SUBJECT_NEPHEWS →
      _get_ordered_entries (scope.map Prod.fst) = some (pre ++ e :: post) →
      (∀ n ∈ pre, emptySubjectDir scope n) →
      scope.lookup e = some (FSNode.dir es) →
      _get_first_entry (es.map Prod.fst) = some x →
      selectCandidate scope s d config =
        .ok (.cand (s ++ [e]) (d ++ [e]) x
          (if hasSection config e then
             updateItems (_tuples_to_dict (itemsOf config CONF_SECTION_DEFAULT))
               (itemsOf config e)
           else _tuples_to_dict (itemsOf config CONF_SECTION_DEFAULT)))) ∧
    (∀ (scope : List (String × FSNode)) (s d : List String) (config : Sections) ents,
      cfgGet config CONF_SECTION_DEFAULT "move" = some SUBJECT_NEPHEWS →
      _get_ordered_entries (scope.map Prod.fst) = some ents → ents ≠ [] →
      (∀ n ∈ ents, emptySubjectDir scope n) →
      selectCandidate scope s d config = .ok .skipNoNephew) ∧
    (∀ (base upd : Items) (k : String),
      (updateItems base upd).lookup k =
        match (_tuples_to_dict upd).lookup k with
        | some v => some v
        | none => base.lookup k) ∧
    selectCandidate [("A", FSNode.dir []), ("B", FSNode.dir [("x", FSNode.file)])] [] []
        (readConfig [("all", [("move", "nephews"), ("schedule", "daily")]),
                     ("B", [("schedule", "monday")])])
      = .ok (.cand ["B"] ["B"] "x" [("move", "nephews"), ("schedule", "monday")]) := by
  refine ⟨?_, ?_, fun base upd k => lookup_updateItems upd base k, by rfl⟩
  · intro scope s d config pre e post es x hm ho hpre he hx
    have hne : pre ++ e :: post ≠ [] := by simp
    obtain ⟨y, ys, hys⟩ := List.exists_cons_of_ne_nil hne
    rw [hys] at ho
    simp only [selectCandidate, hm, ho, if_pos rfl]
    rw [← hys]
    exact selectNephew_first scope s d config _ pre e post es x hpre he hx
  · intro scope s d config ents hm ho hne hall
    obtain ⟨y, ys, hys⟩ := List.exists_cons_of_ne_nil hne
    rw [hys] at ho hall
    simp only [selectCandidate, hm, ho, if_pos rfl]
    exact selectNephew_all_empty scope s d config _ (y :: ys) hall

/-- Witness for C4: with `move=nephews`, empty subject `A` is skipped and
`B`'s child `x` is the candidate (no `B` section, so base options). -/
theorem nephewSelectionOverrideWitness :
    selectCandidate [("A", FSNode.dir []), ("B", FSNode.dir [("x", FSNode.file)])] [] []
        [("all", [("move", "nephews"), ("schedule", "daily")])]
      = .ok (.cand ["B"] ["B"] "x" [("move", "nephews"), ("schedule", "daily")]) := by
  have h := nephewSelectionOverride.1
    [("A", FSNode.dir []), ("B", FSNode.dir [("x", FSNode.file)])] [] []
    [("all", [("move", "nephews"), ("schedule", "daily")])]
    ["A"] "B" [] [("x", FSNode.file)] "x"
    (by rfl) (by rfl)
    (by intro n hn
        simp only [List.mem_singleton] at hn
        subst hn
        exact ⟨[], rfl, rfl⟩)
    (by rfl) (by rfl)
  exact h.trans (by rfl)

/-- C5 counterexample: the claim says key derivation asserts for every
trailing digit run of length at least 6, but a run of exactly 6 succeeds
and returns the name unchanged. -/
theorem episodeKeySixDigitsOk :
    trailingDigitRun "123456" = 6 ∧ _get_episode_key "123456" = some "123456" := by
  decide

/-- C5 (amended): key derivation asserts exactly for names whose trailing
digit run is strictly longer than 6 characters. -/
theorem episodeKeyAssertsIffOverSix (s : String) :
    _get_episode_key s = none ↔ 6 < trailingDigitRun s := by
  unfold _get_episode_key
  by_cases h0 : trailingDigitRun s = 0
  · simp [h0]
  · rw [if_neg h0]
    by_cases h6 : 6 < trailingDigitRun s
    · simp [h6]
    · simp [h6]

/-- C6: a trailing digit run shorter than 6 is left-padded with zeros to
width 6 after the prefix; names without a trailing digit run are
unchanged; and the derived keys order Season 2 before Season 10 before
Season 100. -/
theorem episodeKeyPadding (s : String) :
    (0 < trailingDigitRun s → trailingDigitRun s < 6 →
      _get_episode_key s =
        some (String.mk (s.data.take (s.data.length - trailingDigitRun s) ++
          List.replicate (6 - trailingDigitRun s) '0' ++
          s.data.drop (s.data.length - trailingDigitRun s)))) ∧
    (trailingDigitRun s = 0 → _get_episode_key s = some s) ∧
    _get_episode_key "Season 2" = some "Season 000002" ∧
    _get_episode_key "Season 10" = some "Season 000010" ∧
    _get_episode_key "Season 100" = some "Season 000100" ∧
    strLt "Season 000002" "Season 000010" = true ∧
    strLt "Season 000010" "Season 000100" = true := by
  refine ⟨?_, ?_, by decide, by decide, by decide, by decide, by decide⟩
  · intro h0 h6
    unfold _get_episode_key
    rw [if_neg (by omega), if_neg (by omega)]
  · intro h0
    unfold _get_episode_key
    rw [if_pos h0]

/-- Witness for C6: `Ep12` pads to `Ep000012`. -/
theorem episodeKeyPaddingWitness : _get_episode_key "Ep12" = some "Ep000012" := by
  have h := (episodeKeyPadding "Ep12").1 (by decide) (by decide)
  rw [h]
  decide

/-- C7: under `move=siblings` the candidate is the scope's own first
naturally-ordered entry; the source and destination directories are the
scope's own and the effective options are exactly the base options. -/
theorem siblingSelection (scope : List (String × FSNode)) (s d : List String)
    (config : Sections) (e : String) (rest : List String)
    (hm : cfgGet config CONF_SECTION_DEFAULT "move" = some SUBJECT_SIBLINGS)
    (ho : _get_ordered_entries (scope.map Prod.fst) = some (e :: rest)) :
    selectCandidate scope s d config =
      .ok (.cand s d e (_tuples_to_dict (itemsOf config CONF_SECTION_DEFAULT))) := by
  simp only [selectCandidate, hm, ho]
  rw [if_neg (by decide)]

/-- Witness for C7: with `move=siblings` the first entry of the scope
itself is the candidate, even though it has nephews. -/
theorem siblingSelectionWitness :
    selectCandidate [("Season 10", FSNode.dir [("e1", FSNode.file)]),
        ("Season 2", FSNode.dir [("e2", FSNode.file)])] [] []
        [("all", [("move", "siblings"), ("schedule", "daily")])]
      = .ok (.cand [] [] "Season 2" [("move", "siblings"), ("schedule", "daily")]) := by
  have h := siblingSelection
    [("Season 10", FSNode.dir [("e1", FSNode.file)]),
     ("Season 2", FSNode.dir [("e2", FSNode.file)])] [] []
    [("all", [("move", "siblings"), ("schedule", "daily")])]
    "Season 2" ["Season 10"] (by rfl) (by rfl)
  exact h.trans (by rfl)

/-- C8: a directory with the marker file is a terminal scope (the
traversal processes exactly it and never visits anything beneath);
without the marker, a pair is visited iff it comes from recursing into
some immediate subdirectory with the entry name appended to both paths
(files ignored); with neither marker nor subdirectories nothing is
visited. -/
theorem traversalMarkerStops (es : List (String × FSNode)) (p d : List String) :
    (hasConfFile (FSNode.dir es) = true → _runOn (FSNode.dir es) p d = [(p, d)]) ∧
    (hasConfFile (FSNode.dir es) = false →
      ((∀ x, x ∈ _runOn (FSNode.dir es) p d ↔
          ∃ n c, (n, c) ∈ es ∧ isDir c = true ∧ x ∈ _runOn c (p ++ [n]) (d ++ [n])) ∧
       ((∀ n c, (n, c) ∈ es → isDir c = false) → _runOn (FSNode.dir es) p d = []))) := by
  refine ⟨fun h => by simp [_runOn, h], fun h => ⟨fun x => ?_, fun hnd => ?_⟩⟩
  · rw [show _runOn (FSNode.dir es) p d = runOnList es p d by simp [_runOn, h]]
    exact mem_runOnList es p d x
  · rw [show _runOn (FSNode.dir es) p d = runOnList es p d by simp [_runOn, h]]
    rw [List.eq_nil_iff_forall_not_mem]
    intro x hx
    rw [mem_runOnList] at hx
    obtain ⟨n, c, hm, hdir, _⟩ := hx
    exact absurd hdir (by simp [hnd n c hm])

/-- Witness for C8: a marked directory is processed as a scope and its
subdirectories are never visited. -/
theorem traversalMarkerStopsWitness :
    _runOn (FSNode.dir [(CONF_NAME, FSNode.file),
        ("sub", FSNode.dir [(CONF_NAME, FSNode.file)])]) [] ["out"]
      = [([], ["out"])] :=
  (traversalMarkerStops [(CONF_NAME, FSNode.file),
    ("sub", FSNode.dir [(CONF_NAME, FSNode.file)])] [] ["out"]).1 (by rfl)

/-- C9: in dry-run mode a positive schedule decision performs no rename
but still sets the run-level "did something" flag, so the run does not
report "Nothing to do". -/
theorem dryRunNoMutation (scope : List (String × FSNode)) (s d : List String)
    (config : Sections) (w : Nat) (o : ScheduleOutcome)
    (h : _moveSubjects scope s d config w true = .ok (.done o))
    (hm : o.doMove = true) :
    o.renamed = none ∧ o.didSomething = true ∧ nothingToDo o.didSomething = false := by
  cases hsel : selectCandidate scope s d config with
  | error e => simp [_moveSubjects, hsel] at h
  | ok c =>
    cases c with
    | skipEmpty => simp [_moveSubjects, hsel] at h
    | skipNoNephew => simp [_moveSubjects, hsel] at h
    | cand s2 d2 fe opts =>
      simp only [_moveSubjects, hsel] at h
      cases hev : evalSchedule opts s2 d2 fe w true with
      | error e => rw [hev] at h; simp at h
      | ok o2 =>
        rw [hev] at h
        simp only [Except.ok.injEq, MoveOutcome.done.injEq] at h
        subst h
        obtain ⟨h1, h2⟩ := evalSchedule_dryRun opts s2 d2 fe w _ hev
        refine ⟨h1, ?_, ?_⟩
        · rw [h2, hm]
        · rw [nothingToDo, h2, hm]
          rfl

/-- Witness for C9: a dry run with a `daily` schedule renames nothing yet
counts as having done something. -/
theorem dryRunNoMutationWitness :
    (ScheduleOutcome.mk true (some "the schedule is daily.") none true).renamed = none ∧
    (ScheduleOutcome.mk true (some "the schedule is daily.") none true).didSomething
      = true ∧
    nothingToDo
      (ScheduleOutcome.mk true (some "the schedule is daily.") none true).didSomething
      = false :=
  dryRunNoMutation [("A", FSNode.dir [("x", FSNode.file)])] [] []
    (readConfig [("all", [("move", "nephews"), ("schedule", "daily")])]) 3
    (ScheduleOutcome.mk true (some "the schedule is daily.") none true) (by rfl) (by rfl)

/-- C10: the missing-schedule error needs a candidate: an empty scope, or
(under `move=nephews`) a scope whose subject directories all lack a
non-hidden child, returns a normal skip before the schedule is ever read,
whatever the configured schedule is. -/
theorem skipBeforeScheduleCheck :
    (∀ (scope : List (String × FSNode)) (s d : List String) (config : Sections)
        (w : Nat) (dry : Bool) subj,
      cfgGet config CONF_SECTION_DEFAULT "move" = some subj →
      _get_ordered_entries (scope.map Prod.fst) = some [] →
      _moveSubjects scope s d config w dry = .ok .skipEmpty) ∧
    (∀ (scope : List (String × FSNode)) (s d : List String) (config : Sections)
        (w : Nat) (dry : Bool) ents,
      cfgGet config CONF_SECTION_DEFAULT "move" = some SUBJECT_NEPHEWS →
      _get_ordered_entries (scope.map Prod.fst) = some ents → ents ≠ [] →
      (∀ n ∈ ents, emptySubjectDir scope n) →
      _moveSubjects scope s d config w dry = .ok .skipNoNephew) := by
  constructor
  · intro scope s d config w dry subj hm ho
    simp [_moveSubjects, selectCandidate, hm, ho]
  · intro scope s d config w dry ents hm ho hne hall
    have hsel : selectCandidate scope s d config = .ok .skipNoNephew := by
      obtain ⟨y, ys, hys⟩ := List.exists_cons_of_ne_nil hne
      rw [hys] at ho hall
      simp only [selectCandidate, hm, ho, if_pos rfl]
      exact selectNephew_all_empty scope s d config _ (y :: ys) hall
    simp [_moveSubjects, hsel]

/-- Witness for C10: a scope with one empty subject directory and an
empty `schedule` is skipped without raising the missing-schedule error. -/
theorem skipBeforeScheduleCheckWitness :
    _moveSubjects [("A", FSNode.dir [])] [] []
        (readConfig [("all", [("move", "nephews")])]) 3 false
      = .ok .skipNoNephew :=
  skipBeforeScheduleCheck.2 [("A", FSNode.dir [])] [] []
    (readConfig [("all", [("move", "nephews")])]) 3 false ["A"]
    (by rfl) (by rfl) (by decide)
    (by intro n hn
        simp only [List.mem_singleton] at hn
        subst hn
        exact ⟨[], rfl, rfl⟩)

end SatMon
